import Mathlib

/-!
# Verification of the blackbox.js observable-state container

Shallow embedding of the repository's two box implementations:

* `src/src/index.ts` — the TypeScript implementation: `createBox` with the
  shallow `copy` helper, `set` (functional mutator), `update` (value
  replacement), `subscribe`/unsubscribe, and `derive`.
* `src/lib/index.js` — the compiled JS variant: `createBox` with a JSON
  round-trip `clone` for the reset snapshot, `set` (shallow merge),
  `update` (in-place mutator on an `Object.assign` copy), `subscribe`
  (no callable check, unguarded `splice`), and `reset`.

JavaScript values are modelled at two levels of abstraction:

* `PVal` — values as structural trees (no aliasing).  This captures the
  observable structure of values and is the level at which the box state
  machines are stated.
* `HVal`/`Heap` — values with explicit heap addresses, used for the claims
  about identity and aliasing of the `copy` helper.
-/

set_option autoImplicit false

/-- Structural (tree) model of a JavaScript value: primitives, functions
(identified by an id, since functions are compared and passed by identity),
arrays and plain objects. -/
inductive PVal where
  | num (n : Int)
  | str (s : String)
  | bool (b : Bool)
  | null
  | undef
  | fn (fid : Nat)
  | arr (xs : List PVal)
  | obj (fs : List (String × PVal))
  deriving Repr

/-- `typeof` of a modelled value, as the JS string.  Note `typeof null`
is `"object"`. -/
def typeofP : PVal → String
  | .num _ => "number"
  | .str _ => "string"
  | .bool _ => "boolean"
  | .null => "object"
  | .undef => "undefined"
  | .fn _ => "function"
  | .arr _ => "object"
  | .obj _ => "object"

/-- Object spread `{...source}` on the structural model: spreading an object
keeps its fields, spreading `null` (or any primitive) yields the empty
object. -/
def spreadIntoObj : PVal → PVal
  | .obj fs => .obj fs
  | _ => .obj []

/-- The `copy` helper of `src/src/index.ts`: values whose `typeof` is not
`'object'` are returned unchanged; functions are returned unchanged (an
unreachable branch, kept from the source); arrays are shallow-copied by
`[...source]`; everything else goes through `{...source}` — in particular
`null` falls through to the object-spread branch and becomes `{}`. -/
def copy (source : PVal) : PVal :=
  if typeofP source ≠ "object" then source
  else if typeofP source = "function" then source
  else match source with
    | .arr xs => .arr xs
    | s => spreadIntoObj s

/-- Errors surfaced by the box API: the explicit
`Error('... must be a function')` checks are `invalidArgument`; the implicit
failure of calling a non-function is `typeError`. -/
inductive JErr where
  | invalidArgument
  | typeError
  deriving Repr, DecidableEq

/-- An argument position that requires a callable: either an actual function
(listeners are identified by ids, mutators by Lean functions) or a
non-callable JS value. -/
inductive SubArg where
  | callable (fid : Nat)
  | notCallable (v : PVal)
  deriving Repr

/-- A mutation-handler argument to `set`: a callable mutator or a
non-callable JS value. -/
inductive MutArg where
  | callable (f : PVal → PVal)
  | notCallable (v : PVal)

/-- State of a box created by `createBox` of `src/src/index.ts`:
the internal state and the subscriber list (function ids, in subscription
order; the same id may occur several times). -/
structure TSBox where
  internalState : PVal
  subscribers : List Nat
  deriving Repr

/-- `createBox(state)`: stores `copy(state)` and an empty subscriber list. -/
def tsCreateBox (state : PVal) : TSBox :=
  ⟨copy state, []⟩

/-- `get()`: returns `copy(internalState)`. -/
def tsGet (b : TSBox) : PVal :=
  copy b.internalState

/-- The unsubscribe closure returned by `subscribe`: looks up the first
index of the subscribed function with `indexOf` and, when the index is not
`-1`, removes one element there with `splice(index, 1)`. -/
def tsUnsubscribe (fid : Nat) (b : TSBox) : TSBox :=
  if fid ∈ b.subscribers then
    { b with subscribers := b.subscribers.eraseIdx (b.subscribers.indexOf fid) }
  else b

/-- `subscribe(subscriber)`: throws when the argument is not a function,
otherwise appends it to the subscriber list (the returned unsubscribe handle
is `tsUnsubscribe fid`). -/
def tsSubscribe (arg : SubArg) (b : TSBox) : Except JErr TSBox :=
  match arg with
  | .notCallable _ => .error .invalidArgument
  | .callable fid => .ok { b with subscribers := b.subscribers ++ [fid] }

/-- What a listener does to the subscriber list when invoked during a
dispatch: the list of function ids whose unsubscribe handles it calls.
A passive listener has the empty list. -/
def ListenerSpecs := Nat → List Nat

/-- One listener's body during dispatch: calling the unsubscribe handles of
each function id in its spec, in order. -/
def runRemovals (b : TSBox) (removals : List Nat) : TSBox :=
  removals.foldl (fun s r => tsUnsubscribe r s) b

/-- `subscribers.forEach(subscriber => subscriber(internalState))` with the
ECMAScript `forEach` semantics: the length is captured once at the start,
indices `0..len-1` are visited in order against the *live* array, and an
index that is no longer present (because listeners removed entries) is
skipped.  Returns the final box and the ids invoked, in invocation order.
The fuel argument is the captured initial length minus the current index. -/
def tsDispatchAux (specs : ListenerSpecs) : Nat → Nat → TSBox → TSBox × List Nat
  | 0, _, b => (b, [])
  | n + 1, k, b =>
    if h : k < b.subscribers.length then
      let fid := b.subscribers[k]
      let b' := runRemovals b (specs fid)
      let res := tsDispatchAux specs n (k + 1) b'
      (res.1, fid :: res.2)
    else
      tsDispatchAux specs n (k + 1) b

/-- Full notification dispatch of the TS box. -/
def tsDispatch (specs : ListenerSpecs) (b : TSBox) : TSBox × List Nat :=
  tsDispatchAux specs b.subscribers.length 0 b

/-- `set(handler)`: throws when the handler is not a function; otherwise
stores `handler(copy(internalState))` and then notifies every subscriber
with the new internal state.  Returns the new box state and the
notification log `(listener id, value received)` in invocation order. -/
def tsSet (specs : ListenerSpecs) (arg : MutArg) (b : TSBox) :
    Except JErr (TSBox × List (Nat × PVal)) :=
  match arg with
  | .notCallable _ => .error .invalidArgument
  | .callable handler =>
    let newState := handler (copy b.internalState)
    let afterStore : TSBox := { b with internalState := newState }
    let res := tsDispatch specs afterStore
    .ok (res.1, res.2.map (fun fid => (fid, newState)))

/-- `update(state)`: stores `copy(state)` (no callable check — the argument
is a plain value) and notifies every subscriber with the new state. -/
def tsUpdate (specs : ListenerSpecs) (state : PVal) (b : TSBox) :
    TSBox × List (Nat × PVal) :=
  let newState := copy state
  let afterStore : TSBox := { b with internalState := newState }
  let res := tsDispatch specs afterStore
  (res.1, res.2.map (fun fid => (fid, newState)))

/-! ## Heap-level model of values, for identity/aliasing claims

JavaScript objects and arrays live on a heap and are passed by reference;
`HVal` is a value that is either a primitive, a function id, or a reference
to a heap address.  The heap maps addresses to object contents. -/

/-- A JS value with explicit reference semantics. -/
inductive HVal where
  | vnum (n : Int)
  | vstr (s : String)
  | vbool (b : Bool)
  | vnull
  | vundef
  | vfn (fid : Nat)
  | vref (a : Nat)
  deriving Repr, DecidableEq

/-- Contents of a heap cell: an array or a plain object. -/
inductive HObj where
  | harr (xs : List HVal)
  | hobj (fs : List (String × HVal))
  deriving Repr, DecidableEq

/-- A heap: an association list from addresses to contents, plus the next
fresh address. -/
structure Heap where
  data : List (Nat × HObj)
  next : Nat
  deriving Repr

def Heap.lookup (h : Heap) (a : Nat) : Option HObj :=
  (h.data.find? (fun p => p.1 == a)).map (·.2)

/-- Allocate a new cell, returning the extended heap and the fresh address. -/
def Heap.alloc (h : Heap) (o : HObj) : Heap × Nat :=
  (⟨(h.next, o) :: h.data, h.next + 1⟩, h.next)

/-- `typeof` at the heap level; `typeof null` is `"object"`. -/
def typeofH : HVal → String
  | .vnum _ => "number"
  | .vstr _ => "string"
  | .vbool _ => "boolean"
  | .vnull => "object"
  | .vundef => "undefined"
  | .vfn _ => "function"
  | .vref _ => "object"

/-- The `copy` helper of `src/src/index.ts` at the heap level: primitives and
functions are returned unchanged; an array reference is shallow-copied into a
fresh cell with the same element values (`[...source]`); an object reference
is shallow-copied into a fresh cell with the same field values
(`{...source}`); `null` becomes a fresh empty object. -/
def hcopy (h : Heap) (source : HVal) : Heap × HVal :=
  if typeofH source ≠ "object" then (h, source)
  else if typeofH source = "function" then (h, source)
  else match source with
    | .vnull =>
      let res := h.alloc (.hobj [])
      (res.1, .vref res.2)
    | .vref a =>
      match h.lookup a with
      | some (.harr xs) =>
        let res := h.alloc (.harr xs)
        (res.1, .vref res.2)
      | some (.hobj fs) =>
        let res := h.alloc (.hobj fs)
        (res.1, .vref res.2)
      | none =>
        let res := h.alloc (.hobj [])
        (res.1, .vref res.2)
    | v => (h, v)

/-- `createBox(state)` at the heap level: the stored internal state is
`copy(state)`. -/
def hCreateBox (h : Heap) (state : HVal) : Heap × HVal :=
  hcopy h state

/-- `get()` at the heap level: returns `copy(internalState)`. -/
def hGet (h : Heap) (stored : HVal) : Heap × HVal :=
  hcopy h stored

/-- Addresses reachable from a value (through the heap), fuel-bounded. -/
def reachList (h : Heap) : Nat → HVal → List Nat
  | 0, _ => []
  | n + 1, .vref a =>
    a :: (match h.lookup a with
      | some (.harr xs) => (xs.map (reachList h n)).flatten
      | some (.hobj fs) => (fs.map (fun p => reachList h n p.2)).flatten
      | none => [])
  | _ + 1, _ => []

/-- One step of structural comparison, given a comparison for the nested
values.  References are structurally equal when they are the same address or
when their contents match pointwise. -/
def structEqStep (h : Heap) (recEq : HVal → HVal → Bool) : HVal → HVal → Bool
  | .vnum a, .vnum b => a == b
  | .vstr a, .vstr b => a == b
  | .vbool a, .vbool b => a == b
  | .vnull, .vnull => true
  | .vundef, .vundef => true
  | .vfn a, .vfn b => a == b
  | .vref a, .vref b =>
    a == b ||
      (match h.lookup a, h.lookup b with
       | some (.harr xs), some (.harr ys) =>
         xs.length == ys.length && (xs.zip ys).all (fun p => recEq p.1 p.2)
       | some (.hobj fs), some (.hobj gs) =>
         fs.length == gs.length &&
           (fs.zip gs).all (fun p => p.1.1 == p.2.1 && recEq p.1.2 p.2.2)
       | _, _ => false)
  | _, _ => false

/-- Fuel-bounded structural (deep) equality of heap values. -/
def structEqN (h : Heap) : Nat → HVal → HVal → Bool
  | 0, _, _ => false
  | n + 1, v, w => structEqStep h (structEqN h n) v w

/-! ## The `src/lib/index.js` variant -/

/-- A subscriber entry of the lib variant: `subscribe` performs no callable
check, so the list may hold non-callable values.  Callables are identified by
function id. -/
inductive LEntry where
  | callable (fid : Nat)
  | notCallable (v : PVal)
  deriving Repr

/-- `===` comparison of subscriber entries as used by `indexOf`: functions
compare by identity (their id).  The claims never unsubscribe a non-callable
entry, which would compare by object identity. -/
def LEntry.same : LEntry → LEntry → Bool
  | .callable a, .callable b => a == b
  | _, _ => false

/-- State of a box created by `createBox` of `src/lib/index.js`: the current
value `inner` (stored and returned without any copy), the reset snapshot
`zero` (a JSON round-trip clone of the constructor argument), and the
subscriber list. -/
structure LibBox where
  inner : PVal
  zero : PVal
  subscribers : List LEntry

/-- Whether `JSON.stringify` drops this value (when it is an object field). -/
def isJsonDropped : PVal → Bool
  | .undef => true
  | .fn _ => true
  | _ => false

mutual

/-- Effect of `JSON.parse(JSON.stringify(v))` on the structure of a
serializable value: object fields holding `undefined` or functions are
dropped, array elements holding them become `null`. -/
def jsonStrip : PVal → PVal
  | .num n => .num n
  | .str s => .str s
  | .bool b => .bool b
  | .null => .null
  | .undef => .null
  | .fn _ => .null
  | .arr xs => .arr (jsonStripList xs)
  | .obj fs => .obj (jsonStripFields fs)

def jsonStripList : List PVal → List PVal
  | [] => []
  | x :: xs => jsonStrip x :: jsonStripList xs

def jsonStripFields : List (String × PVal) → List (String × PVal)
  | [] => []
  | (k, v) :: fs =>
    if isJsonDropped v then jsonStripFields fs
    else (k, jsonStrip v) :: jsonStripFields fs

end

/-- The `clone` helper of `src/lib/index.js`:
`JSON.parse(JSON.stringify(value))`.  A top-level `undefined` or function
does not serialize to valid JSON, so the round trip fails. -/
def jsonClone (v : PVal) : Option PVal :=
  match v with
  | .undef => none
  | .fn _ => none
  | _ => some (jsonStrip v)

/-- Own enumerable properties of a value, as copied by `Object.assign`:
an object's fields, an array's index-keyed elements, a string's index-keyed
characters, nothing for other primitives. -/
def ownProps : PVal → List (String × PVal)
  | .obj fs => fs
  | .arr xs => xs.enum.map (fun p => (toString p.1, p.2))
  | .str s => s.toList.enum.map (fun p => (toString p.1, .str (String.mk [p.2])))
  | _ => []

/-- Set a property on a field list, JS-style: an existing key keeps its
position and is overwritten, a new key is appended. -/
def setProp (fs : List (String × PVal)) (k : String) (v : PVal) :
    List (String × PVal) :=
  if fs.any (fun p => p.1 == k) then
    fs.map (fun p => if p.1 == k then (k, v) else p)
  else fs ++ [(k, v)]

/-- Copy all own properties of `src` onto the field list `base`. -/
def assignProps (base : List (String × PVal)) (src : PVal) :
    List (String × PVal) :=
  (ownProps src).foldl (fun acc p => setProp acc p.1 p.2) base

/-- `Object.assign({}, inner, value)` — the shallow merge used by the lib
variant's `set`. -/
def assignMerge (inner v : PVal) : PVal :=
  .obj (assignProps (assignProps [] inner) v)

/-- `Object.assign({}, inner)` — the shallow copy handed to the lib
variant's `update` callback. -/
def assignClone (inner : PVal) : PVal :=
  .obj (assignProps [] inner)

/-- `createBox(value)` of the lib variant: `inner` is the argument itself
(no copy), `zero` is its JSON round-trip clone; fails when the clone
fails. -/
def libCreateBox (v : PVal) : Option LibBox :=
  (jsonClone v).map (fun z => ⟨v, z, []⟩)

/-- `get()` of the lib variant: returns `inner` itself, with no copy. -/
def libGet (b : LibBox) : PVal := b.inner

/-- `reset()` of the lib variant: sets `inner` back to `zero`.  The source
contains no notification loop, so the notification log is always empty. -/
def libReset (b : LibBox) : LibBox × List (Nat × PVal) :=
  ({ b with inner := b.zero }, [])

/-- `subscribers.forEach(subscriber => subscriber(inner))` in the lib
variant: each callable entry is invoked with the value; hitting a
non-callable entry throws a `TypeError`, aborting the rest of the loop. -/
def libNotify : List LEntry → PVal → List (Nat × PVal) × Option JErr
  | [], _ => ([], none)
  | .callable fid :: rest, v =>
    let res := libNotify rest v
    ((fid, v) :: res.1, res.2)
  | .notCallable _ :: _, _ => ([], some .typeError)

/-- `set(value)` of the lib variant: shallow-merges `value` into `inner`
with `Object.assign({}, inner, value)` and notifies. -/
def libSet (v : PVal) (b : LibBox) : LibBox × (List (Nat × PVal) × Option JErr) :=
  let inner' := assignMerge b.inner v
  ({ b with inner := inner' }, libNotify b.subscribers inner')

/-- `update(updater)` of the lib variant: makes the `Object.assign` copy,
invokes the updater on it (a non-callable updater throws a `TypeError`
before `inner` is touched and before anyone is notified), stores the
mutated copy and notifies.  The updater is modelled as the function from
the copy it receives to the value the copy holds after the mutation. -/
def libUpdate (arg : MutArg) (b : LibBox) :
    Except JErr (LibBox × (List (Nat × PVal) × Option JErr)) :=
  match arg with
  | .notCallable _ => .error .typeError
  | .callable f =>
    let c := assignClone b.inner
    let inner' := f c
    .ok ({ b with inner := inner' }, libNotify b.subscribers inner')

/-- `subscribe(subscriber)` of the lib variant: pushes the argument with no
callable check and never fails. -/
def libSubscribeF (e : LEntry) (b : LibBox) : LibBox :=
  { b with subscribers := b.subscribers ++ [e] }

/-- The unsubscribe closure of the lib variant: `indexOf` then
`splice(index, 1)` with **no** `-1` guard; when the entry is absent,
`splice(-1, 1)` removes the *last* element of the list. -/
def libUnsubscribe (e : LEntry) (b : LibBox) : LibBox :=
  match b.subscribers.findIdx? (fun x => LEntry.same x e) with
  | some i => { b with subscribers := b.subscribers.eraseIdx i }
  | none => { b with subscribers := b.subscribers.dropLast }

/-- An operation on a lib-variant box, for quantifying over mutation
histories. -/
inductive LibOp where
  | setOp (v : PVal)
  | updateOp (f : PVal → PVal)
  | updateBad (v : PVal)
  | subscribeOp (e : LEntry)
  | unsubOp (e : LEntry)
  | resetOp

/-- State transition of one lib-variant operation (a failed `update` leaves
the box unchanged). -/
def libStep (b : LibBox) : LibOp → LibBox
  | .setOp v => (libSet v b).1
  | .updateOp f =>
    match libUpdate (.callable f) b with
    | .ok p => p.1
    | .error _ => b
  | .updateBad _ => b
  | .subscribeOp e => libSubscribeF e b
  | .unsubOp e => libUnsubscribe e b
  | .resetOp => (libReset b).1

/-- Run a sequence of lib-variant operations. -/
def libRun (ops : List LibOp) (b : LibBox) : LibBox :=
  ops.foldl libStep b

/-! ## The derivation layer (`derive` of `src/src/index.ts`) -/

/-- A subscriber entry of the source box in a world containing one
derivation: either an ordinary listener or the forwarding listener that
`derive` registers on the source at construction. -/
inductive BoxSubEntry where
  | plain (fid : Nat)
  | forwarder
  deriving Repr, DecidableEq

/-- Combined state of a source box and one derivation over it: the box's
value and subscriber list (in which the derivation's forwarder sits at its
subscription position), and the derivation's own subscriber list. -/
structure DerWorld where
  boxValue : PVal
  boxSubs : List BoxSubEntry
  dsubs : List Nat

/-- A projection-function argument to `derive`: a callable (possibly
throwing) projection, or a non-callable JS value. -/
inductive SelArg where
  | callable (f : PVal → Except JErr PVal)
  | notCallable (v : PVal)

/-- `derive(box, selectorFunction)`: performs **no** check on
`selectorFunction`; it calls `box.subscribe` with the forwarder closure —
which is a function, so the subscription is accepted — and returns the
observable box.  Construction never throws, whatever the projection is. -/
def deriveMkE (_sel : SelArg) (b : TSBox) : Except JErr DerWorld :=
  .ok ⟨b.internalState, b.subscribers.map .plain ++ [.forwarder], []⟩

/-- `box.get()` inside a derivation world. -/
def boxGetD (w : DerWorld) : PVal := copy w.boxValue

/-- The derivation's `get()`: `selectorFunction(box.get())`, recomputed at
every call — there is no cache in the source. -/
def derGet (sel : PVal → PVal) (w : DerWorld) : PVal :=
  sel (boxGetD w)

/-- The derivation's `get()` with a fallible projection: the projection's
failure propagates to the caller of `get`. -/
def derGetE (sel : PVal → Except JErr PVal) (w : DerWorld) : Except JErr PVal :=
  sel (boxGetD w)

/-- A notification event in a derivation world: a source-box listener or a
derivation subscriber receiving a value. -/
inductive DEv where
  | boxNotify (fid : Nat) (v : PVal)
  | derNotify (fid : Nat) (v : PVal)
  deriving Repr

/-- Events emitted by the source box's dispatch loop: an ordinary listener
receives the new source value; the forwarder runs
`subscribers.forEach(s => s(selectorFunction(state)))`, notifying every
derivation subscriber with the projected value. -/
def dsetEvents (sel : PVal → PVal) (newVal : PVal) (dsubs : List Nat) :
    List BoxSubEntry → List DEv
  | [] => []
  | .plain fid :: rest => .boxNotify fid newVal :: dsetEvents sel newVal dsubs rest
  | .forwarder :: rest =>
    dsubs.map (fun d => DEv.derNotify d (sel newVal)) ++ dsetEvents sel newVal dsubs rest

/-- `box.set(handler)` in a derivation world with a total projection:
stores `handler(copy(boxValue))` and dispatches. -/
def dsetOp (sel : PVal → PVal) (handler : PVal → PVal) (w : DerWorld) :
    DerWorld × List DEv :=
  let newVal := handler (copy w.boxValue)
  ({ w with boxValue := newVal }, dsetEvents sel newVal w.dsubs w.boxSubs)

/-- Recognizer for derivation-subscriber events. -/
def isDerNotify : DEv → Bool
  | .derNotify _ _ => true
  | _ => false

/-- An operation in a derivation world, for quantifying over mutation
histories: mutate the source (`set`/`update`), subscribe/unsubscribe on the
derivation, subscribe/unsubscribe an ordinary listener on the source.
The forwarder's subscription has no exposed unsubscribe handle in the
source, so no operation can remove it. -/
inductive DOp where
  | setOp (m : PVal → PVal)
  | updateOp (v : PVal)
  | subD (fid : Nat)
  | unsubD (fid : Nat)
  | subB (fid : Nat)
  | unsubB (fid : Nat)

/-- State transition of one derivation-world operation. -/
def dStep (sel : PVal → PVal) (w : DerWorld) : DOp → DerWorld
  | .setOp m => (dsetOp sel m w).1
  | .updateOp v => { w with boxValue := copy v }
  | .subD fid => { w with dsubs := w.dsubs ++ [fid] }
  | .unsubD fid => { w with dsubs := w.dsubs.erase fid }
  | .subB fid => { w with boxSubs := w.boxSubs ++ [.plain fid] }
  | .unsubB fid => { w with boxSubs := w.boxSubs.erase (.plain fid) }

/-- Run a sequence of derivation-world operations. -/
def dRun (sel : PVal → PVal) (ops : List DOp) (w : DerWorld) : DerWorld :=
  ops.foldl (dStep sel) w

/-- The forwarder's inner loop with a fallible projection:
`selectorFunction(state)` is evaluated per subscriber; a failure throws out
of the loop, skipping the remaining derivation subscribers. -/
def derNotifyE (sel : PVal → Except JErr PVal) (newVal : PVal) :
    List Nat → List DEv × Option JErr
  | [] => ([], none)
  | d :: ds =>
    match sel newVal with
    | .error e => ([], some e)
    | .ok t =>
      let res := derNotifyE sel newVal ds
      (DEv.derNotify d t :: res.1, res.2)

/-- The source box's dispatch loop with a fallible projection: a failure
inside the forwarder propagates out of the whole dispatch, skipping the
remaining source-box listeners (fail-fast). -/
def dsetEventsE (sel : PVal → Except JErr PVal) (newVal : PVal) (dsubs : List Nat) :
    List BoxSubEntry → List DEv × Option JErr
  | [] => ([], none)
  | .plain fid :: rest =>
    let res := dsetEventsE sel newVal dsubs rest
    (.boxNotify fid newVal :: res.1, res.2)
  | .forwarder :: rest =>
    let res1 := derNotifyE sel newVal dsubs
    match res1.2 with
    | some e => (res1.1, some e)
    | none =>
      let res := dsetEventsE sel newVal dsubs rest
      (res1.1 ++ res.1, res.2)

/-- `box.set(handler)` in a derivation world with a fallible projection:
the new value is stored before the dispatch, and a projection failure
during the dispatch propagates to the `set` caller after the store. -/
def dsetOpE (sel : PVal → Except JErr PVal) (handler : PVal → PVal) (w : DerWorld) :
    DerWorld × List DEv × Option JErr :=
  let newVal := handler (copy w.boxValue)
  let res := dsetEventsE sel newVal w.dsubs w.boxSubs
  ({ w with boxValue := newVal }, res.1, res.2)

/-! ## Lemmas about the TS box -/

theorem copy_eq_self {v : PVal} (hv : v ≠ PVal.null) : copy v = v := by
  cases v <;> first | rfl | exact absurd rfl hv

theorem tsUnsubscribe_internalState (fid : Nat) (b : TSBox) :
    (tsUnsubscribe fid b).internalState = b.internalState := by
  unfold tsUnsubscribe
  split <;> rfl

theorem eraseIdx_indexOf (l : List Nat) (a : Nat) :
    l.eraseIdx (l.indexOf a) = l.erase a := by
  induction l with
  | nil => rfl
  | cons b t ih =>
    by_cases h : b = a
    · subst h
      rw [List.indexOf_cons_self, List.eraseIdx_cons_zero, List.erase_cons_head]
    · rw [List.indexOf_cons_ne _ h, List.eraseIdx_cons_succ, ih,
        List.erase_cons_tail (by simpa using h)]

theorem tsUnsubscribe_subscribers (fid : Nat) (b : TSBox) :
    (tsUnsubscribe fid b).subscribers = b.subscribers.erase fid := by
  unfold tsUnsubscribe
  by_cases h : fid ∈ b.subscribers
  · rw [if_pos h]
    exact eraseIdx_indexOf _ _
  · rw [if_neg h]
    exact (List.erase_of_not_mem h).symm

theorem runRemovals_internalState (rs : List Nat) :
    ∀ b : TSBox, (runRemovals b rs).internalState = b.internalState := by
  induction rs with
  | nil => intro b; rfl
  | cons r rs ih =>
    intro b
    show (runRemovals (tsUnsubscribe r b) rs).internalState = b.internalState
    rw [ih, tsUnsubscribe_internalState]

theorem runRemovals_sublist (rs : List Nat) :
    ∀ b : TSBox, List.Sublist (runRemovals b rs).subscribers b.subscribers := by
  induction rs with
  | nil => intro b; exact List.Sublist.refl _
  | cons r rs ih =>
    intro b
    show List.Sublist (runRemovals (tsUnsubscribe r b) rs).subscribers b.subscribers
    refine (ih _).trans ?_
    rw [tsUnsubscribe_subscribers]
    exact List.erase_sublist _ _

theorem tsDispatchAux_internalState (specs : ListenerSpecs) :
    ∀ n k b, (tsDispatchAux specs n k b).1.internalState = b.internalState := by
  intro n
  induction n with
  | zero => intro k b; rfl
  | succ n ih =>
    intro k b
    rw [tsDispatchAux]
    split
    · rw [ih, runRemovals_internalState]
    · exact ih _ _

theorem tsDispatchAux_passive (specs : ListenerSpecs) :
    ∀ n k b, (∀ fid ∈ b.subscribers, specs fid = []) →
      n + k = b.subscribers.length →
      tsDispatchAux specs n k b = (b, b.subscribers.drop k) := by
  intro n
  induction n with
  | zero =>
    intro k b _ hlen
    have hk : k = b.subscribers.length := by omega
    rw [tsDispatchAux, hk, List.drop_length]
  | succ n ih =>
    intro k b hp hlen
    have hk : k < b.subscribers.length := by omega
    rw [tsDispatchAux, dif_pos hk]
    have hspec : specs (b.subscribers[k]) = [] :=
      hp _ (List.getElem_mem hk)
    show ((tsDispatchAux specs n (k + 1) (runRemovals b (specs b.subscribers[k]))).1,
        b.subscribers[k]
          :: (tsDispatchAux specs n (k + 1) (runRemovals b (specs b.subscribers[k]))).2)
      = (b, b.subscribers.drop k)
    rw [hspec]
    show ((tsDispatchAux specs n (k + 1) b).1,
        b.subscribers[k] :: (tsDispatchAux specs n (k + 1) b).2)
      = (b, b.subscribers.drop k)
    rw [ih (k + 1) b hp (by omega), List.drop_eq_getElem_cons hk]

theorem tsDispatch_passive (specs : ListenerSpecs) (b : TSBox)
    (hp : ∀ fid ∈ b.subscribers, specs fid = []) :
    tsDispatch specs b = (b, b.subscribers) := by
  rw [tsDispatch, tsDispatchAux_passive specs _ 0 b hp (by omega), List.drop_zero]

/-- C1: after an accepted `set` or `update`, every listener subscribed at
the time of the call — here with listeners that do not themselves mutate the
subscriber list during the dispatch — is invoked exactly once, in
subscription order, with the post-mutation value; the subscriber list is
unchanged, and no notification is skipped, duplicated, or suppressed by any
equality check. -/
theorem c1_set_update_notify_all (b : TSBox) (m : PVal → PVal) (v : PVal)
    (specs : ListenerSpecs)
    (hp : ∀ fid ∈ b.subscribers, specs fid = []) :
    tsSet specs (.callable m) b
      = .ok (⟨m (copy b.internalState), b.subscribers⟩,
          b.subscribers.map (fun fid => (fid, m (copy b.internalState))))
    ∧ tsUpdate specs v b
      = (⟨copy v, b.subscribers⟩,
          b.subscribers.map (fun fid => (fid, copy v))) := by
  constructor
  · show Except.ok
        ((tsDispatch specs { b with internalState := m (copy b.internalState) }).1,
          (tsDispatch specs { b with internalState := m (copy b.internalState) }).2.map
            (fun fid => (fid, m (copy b.internalState))))
      = _
    rw [tsDispatch_passive specs
      { internalState := m (copy b.internalState), subscribers := b.subscribers } hp]
  · show ((tsDispatch specs { b with internalState := copy v }).1,
        (tsDispatch specs { b with internalState := copy v }).2.map
          (fun fid => (fid, copy v)))
      = _
    rw [tsDispatch_passive specs
      { internalState := copy v, subscribers := b.subscribers } hp]

/-- Witness for C1 at a concrete box with two passive listeners. -/
theorem c1_witness :
    tsSet (fun _ => []) (.callable (fun s => s)) ⟨.num 0, [3, 5]⟩
      = .ok (⟨.num 0, [3, 5]⟩, [(3, .num 0), (5, .num 0)])
    ∧ tsUpdate (fun _ => []) (.str "x") ⟨.num 0, [3, 5]⟩
      = (⟨.str "x", [3, 5]⟩, [(3, .str "x"), (5, .str "x")]) :=
  c1_set_update_notify_all ⟨.num 0, [3, 5]⟩ (fun s => s) (.str "x") (fun _ => [])
    (fun _ _ => rfl)

/-- C10: the `copy` helper classifies `null` as an object (its `typeof` is
`'object'`, it is not an array) and spreads it, so `copy null = {}`;
`createBox(null).get()` returns `{}`, and any box whose stored value is
`null` yields `{}` from `get()`. -/
theorem c10_null_becomes_empty_object :
    copy PVal.null = PVal.obj []
    ∧ tsGet (tsCreateBox PVal.null) = PVal.obj []
    ∧ ∀ b : TSBox, b.internalState = PVal.null → tsGet b = PVal.obj [] :=
  ⟨rfl, rfl, fun b h => by
    show copy b.internalState = PVal.obj []
    rw [h]
    exact rfl⟩

/-- Witness for C10 at a concrete box storing `null`. -/
theorem c10_witness : tsGet ⟨PVal.null, []⟩ = PVal.obj [] :=
  c10_null_becomes_empty_object.2.2 ⟨PVal.null, []⟩ rfl

/-- C4 counterexample: for the mutator `m = _ => null` on `createBox(0)`,
`set(m)` stores `null`, but `get()` then returns `{}` (the `copy` helper
converts `null` to an empty object), which is not structurally equal to
`m(previousValue) = null`. -/
theorem c4_cex :
    tsSet (fun _ => []) (.callable (fun _ => PVal.null)) (tsCreateBox (.num 0))
      = .ok (⟨PVal.null, []⟩, [])
    ∧ tsGet ⟨PVal.null, []⟩ ≠ (fun _ => PVal.null) (tsGet (tsCreateBox (.num 0))) :=
  ⟨rfl, fun h => PVal.noConfusion h⟩

/-- C4 amended: `set(m)` hands the mutator a defensive copy of the current
value and stores the mutator's return value; provided that return value is
not `null`, a following `get()` returns exactly `m(previousValue)` (with
`previousValue` the value `get()` would have returned before the call).
When the mutator returns `null`, `get()` instead reports `{}`. -/
theorem c4_amended_set (b : TSBox) (m : PVal → PVal) (specs : ListenerSpecs)
    (hm : m (tsGet b) ≠ PVal.null) :
    ∃ b' log, tsSet specs (.callable m) b = .ok (b', log)
      ∧ b'.internalState = m (tsGet b)
      ∧ tsGet b' = m (tsGet b) := by
  refine ⟨_, _, rfl, ?_, ?_⟩
  · exact tsDispatchAux_internalState specs _ _ _
  · show copy (tsDispatchAux specs _ _ _).1.internalState = m (tsGet b)
    rw [tsDispatchAux_internalState specs _ _ _]
    exact copy_eq_self hm

/-- Witness for the amended C4 at a concrete box and mutator. -/
theorem c4_amended_witness :
    ∃ b' log,
      tsSet (fun _ => []) (.callable (fun s => s)) (tsCreateBox (.num 7))
        = .ok (b', log)
      ∧ b'.internalState = (fun s => s) (tsGet (tsCreateBox (.num 7)))
      ∧ tsGet b' = (fun s => s) (tsGet (tsCreateBox (.num 7))) :=
  c4_amended_set (tsCreateBox (.num 7)) (fun s => s) (fun _ => [])
    (fun h => PVal.noConfusion h)

/-- C5 counterexample: subscribe `f` (id 0), then `g` (id 1), then `f`
again; the unsubscribe handle returned by the *second* subscription of `f`
removes the *first* occurrence of `f` (`indexOf` lookup), leaving `[g, f]`,
not the claimed removal of its own entry, which would leave `[f, g]`. -/
theorem c5_cex :
    (tsUnsubscribe 0 ⟨.num 0, [0, 1, 0]⟩).subscribers = [1, 0]
    ∧ ([1, 0] : List Nat) ≠ [0, 1] := by
  constructor
  · rfl
  · decide

/-- C5 amended: the unsubscribe handle removes the first remaining
occurrence of the subscribed function from the list (leaving every other
function's entries untouched and decrementing that function's entry count by
one); calling it when no occurrence of the function remains is a no-op; and
when the function had at most one entry, no later notification reaches
it.  With duplicate subscriptions of one function, a handle removes the
first remaining occurrence, not specifically the entry its own `subscribe`
call created. -/
theorem c5_amended_unsubscribe (b : TSBox) (fid g : Nat) (v : PVal)
    (hg : g ≠ fid) :
    (tsUnsubscribe fid b).subscribers = b.subscribers.erase fid
    ∧ (fid ∉ b.subscribers → tsUnsubscribe fid b = b)
    ∧ (tsUnsubscribe fid b).subscribers.count g = b.subscribers.count g
    ∧ (tsUnsubscribe fid b).subscribers.count fid = b.subscribers.count fid - 1
    ∧ (b.subscribers.count fid ≤ 1 →
        ∀ p ∈ (tsUpdate (fun _ => []) v (tsUnsubscribe fid b)).2, p.1 ≠ fid) := by
  have h1 := tsUnsubscribe_subscribers fid b
  refine ⟨h1, ?_, ?_, ?_, ?_⟩
  · intro h
    unfold tsUnsubscribe
    rw [if_neg h]
  · rw [h1]
    exact List.count_erase_of_ne hg _
  · rw [h1]
    exact List.count_erase_self _ _
  · intro hc p hp
    have hnot : fid ∉ (tsUnsubscribe fid b).subscribers := by
      rw [h1]
      have h2 : (b.subscribers.erase fid).count fid = b.subscribers.count fid - 1 :=
        List.count_erase_self _ _
      have h3 : (b.subscribers.erase fid).count fid = 0 := by omega
      exact List.count_eq_zero.mp h3
    have hupd : (tsUpdate (fun _ => []) v (tsUnsubscribe fid b)).2
        = (tsUnsubscribe fid b).subscribers.map (fun f => (f, copy v)) := by
      show ((tsDispatch (fun _ => [])
          { internalState := copy v,
            subscribers := (tsUnsubscribe fid b).subscribers }).2.map
          (fun f => (f, copy v))) = _
      rw [tsDispatch_passive (fun _ => [])
        { internalState := copy v, subscribers := (tsUnsubscribe fid b).subscribers }
        (fun _ _ => rfl)]
    rw [hupd] at hp
    obtain ⟨f, hf, rfl⟩ := List.mem_map.mp hp
    intro heq
    exact hnot (heq ▸ hf)

/-- Witness for the amended C5: one subscriber `4`, unsubscribed; `9` is an
unrelated function id. -/
theorem c5_amended_witness :
    (tsUnsubscribe 4 ⟨.num 0, [4]⟩).subscribers
        = (⟨.num 0, [4]⟩ : TSBox).subscribers.erase 4
    ∧ (4 ∉ (⟨.num 0, [4]⟩ : TSBox).subscribers →
        tsUnsubscribe 4 ⟨.num 0, [4]⟩ = ⟨.num 0, [4]⟩)
    ∧ (tsUnsubscribe 4 ⟨.num 0, [4]⟩).subscribers.count 9
        = (⟨.num 0, [4]⟩ : TSBox).subscribers.count 9
    ∧ (tsUnsubscribe 4 ⟨.num 0, [4]⟩).subscribers.count 4
        = (⟨.num 0, [4]⟩ : TSBox).subscribers.count 4 - 1
    ∧ ((⟨.num 0, [4]⟩ : TSBox).subscribers.count 4 ≤ 1 →
        ∀ p ∈ (tsUpdate (fun _ => []) (.num 1) (tsUnsubscribe 4 ⟨.num 0, [4]⟩)).2,
          p.1 ≠ 4) :=
  c5_amended_unsubscribe ⟨.num 0, [4]⟩ 4 9 (.num 1) (by decide)

/-- C6 counterexample: listeners `[f, g]` (ids 0, 1) where `f`
unsubscribes *itself* when invoked.  `set` invokes `f`, the `splice` shifts
`g` to index 0, and the `forEach` loop — already past index 0 — skips `g`
entirely: the notification log is `[(0, v)]`, not the `[(0, v), (1, v)]`
the claim requires (removal of an already-called listener was supposed to
take effect only from the next notification, with no listener skipped). -/
theorem c6_cex :
    tsSet (fun fid => if fid = 0 then [0] else []) (.callable (fun s => s))
        ⟨.num 1, [0, 1]⟩
      = .ok (⟨.num 1, [1]⟩, [(0, .num 1)])
    ∧ ([((0 : Nat), PVal.num 1)] : List (Nat × PVal))
        ≠ [(0, PVal.num 1), (1, PVal.num 1)] := by
  constructor
  · rfl
  · intro h
    injection h with _ h2
    exact List.noConfusion h2

theorem tsDispatchAux_called_sublist (specs : ListenerSpecs) :
    ∀ n k b, List.Sublist (tsDispatchAux specs n k b).2 (b.subscribers.drop k) := by
  intro n
  induction n with
  | zero => intro k b; exact List.nil_sublist _
  | succ n ih =>
    intro k b
    rw [tsDispatchAux]
    split
    next h =>
      show List.Sublist
        (b.subscribers[k]
          :: (tsDispatchAux specs n (k + 1) (runRemovals b (specs b.subscribers[k]))).2)
        (b.subscribers.drop k)
      rw [List.drop_eq_getElem_cons h]
      refine List.Sublist.cons₂ _ ?_
      refine (ih (k + 1) (runRemovals b (specs b.subscribers[k]))).trans ?_
      exact List.Sublist.drop (runRemovals_sublist _ b) (k + 1)
    next h =>
      refine (ih (k + 1) b).trans ?_
      exact List.drop_sublist_drop_left _ (by omega)

/-- C6 amended: a dispatch with listeners that unsubscribe mid-notification
never crashes (the dispatch is a total function), and the listeners invoked
form a subsequence of the subscriber list as it stood when the mutation
started — so no entry is invoked twice, and an entry removed before being
reached is never invoked.  However, removals take effect immediately: a
removal at or before the current index shifts the array under the `forEach`
loop and makes it skip the listener after the current position, so a
not-removed listener can miss the current notification. -/
theorem c6_amended_dispatch (specs : ListenerSpecs) :
    (∀ n k b, List.Sublist (tsDispatchAux specs n k b).2 (b.subscribers.drop k))
    ∧ ∀ b m, ∃ b' log, tsSet specs (.callable m) b = .ok (b', log)
        ∧ ∃ called, log = called.map (fun fid => (fid, m (copy b.internalState)))
            ∧ List.Sublist called b.subscribers := by
  refine ⟨tsDispatchAux_called_sublist specs, ?_⟩
  intro b m
  refine ⟨_, _, rfl,
    (tsDispatch specs { b with internalState := m (copy b.internalState) }).2,
    rfl, ?_⟩
  have h2 := tsDispatchAux_called_sublist specs
    (b.subscribers.length) 0 { b with internalState := m (copy b.internalState) }
  rw [List.drop_zero] at h2
  exact h2

/-! ## Lemmas about the heap model -/

theorem Heap.lookup_head (d : List (Nat × HObj)) (m b : Nat) (o' : HObj) :
    Heap.lookup ⟨(b, o') :: d, m⟩ b = some o' := by
  simp [Heap.lookup, List.find?_cons]

theorem Heap.lookup_cons_ne (d : List (Nat × HObj)) (m b : Nat) (o' : HObj)
    (a : Nat) (hne : b ≠ a) :
    Heap.lookup ⟨(b, o') :: d, m⟩ a = Heap.lookup ⟨d, m⟩ a := by
  simp [Heap.lookup, List.find?_cons, hne]

theorem hcopy_ref (h : Heap) (a : Nat) (o : HObj) (hl : h.lookup a = some o) :
    hcopy h (.vref a) = (⟨(h.next, o) :: h.data, h.next + 1⟩, .vref h.next) := by
  cases o with
  | harr xs => simp [hcopy, typeofH, hl, Heap.alloc]
  | hobj fs => simp [hcopy, typeofH, hl, Heap.alloc]

theorem structEqN_refl (h : Heap) (n : Nat) (v : HVal) :
    structEqN h (n + 1) v v = true := by
  cases v <;> simp [structEqN, structEqStep]

theorem all_zip_self_structEq (h : Heap) (xs : List HVal) :
    (xs.zip xs).all (fun p => structEqN h 1 p.1 p.2) = true := by
  induction xs with
  | nil => rfl
  | cons x xs ih => simp [List.all_cons, ih, structEqN_refl h 0 x]

theorem all_zip_self_structEqF (h : Heap) (fs : List (String × HVal)) :
    (fs.zip fs).all (fun p => p.1.1 == p.2.1 && structEqN h 1 p.1.2 p.2.2)
      = true := by
  induction fs with
  | nil => rfl
  | cons f fs ih => simp [List.all_cons, ih, structEqN_refl h 0 f.2]

/-- C2 counterexample: a box created around the object `{a: {b: 1}}`
(address 0 pointing at address 1).  `createBox` stores a shallow copy at
fresh address 2 and `get()` returns another shallow copy at fresh address 3,
but both still reference address 1 for the nested object: the value `get()`
returns shares the mutable nested identity 1 with the internally stored
value (and with the original), so external code holding the nested object
can mutate the box's state without any notification. -/
theorem c2_cex :
    hCreateBox ⟨[(0, .hobj [("a", .vref 1)]), (1, .hobj [("b", .vnum 1)])], 2⟩
        (.vref 0)
      = (⟨[(2, .hobj [("a", .vref 1)]), (0, .hobj [("a", .vref 1)]),
            (1, .hobj [("b", .vnum 1)])], 3⟩, .vref 2)
    ∧ hGet ⟨[(2, .hobj [("a", .vref 1)]), (0, .hobj [("a", .vref 1)]),
            (1, .hobj [("b", .vnum 1)])], 3⟩ (.vref 2)
      = (⟨[(3, .hobj [("a", .vref 1)]), (2, .hobj [("a", .vref 1)]),
            (0, .hobj [("a", .vref 1)]), (1, .hobj [("b", .vnum 1)])], 4⟩,
          .vref 3)
    ∧ 1 ∈ reachList ⟨[(3, .hobj [("a", .vref 1)]), (2, .hobj [("a", .vref 1)]),
            (0, .hobj [("a", .vref 1)]), (1, .hobj [("b", .vnum 1)])], 4⟩ 5
          (.vref 3)
    ∧ 1 ∈ reachList ⟨[(3, .hobj [("a", .vref 1)]), (2, .hobj [("a", .vref 1)]),
            (0, .hobj [("a", .vref 1)]), (1, .hobj [("b", .vnum 1)])], 4⟩ 5
          (.vref 2) := by
  refine ⟨rfl, rfl, ?_, ?_⟩ <;> decide

/-- C2 amended: for a structured value (a live object/array reference),
`createBox(v).get()` is structurally equal to `v` but not identical to it —
the stored value and the value `get()` returns each live at a fresh
top-level address — so top-level external mutation cannot bypass
notification; however the copies are shallow: all nested references are
shared with the original, so nested mutable state remains aliased. -/
theorem c2_amended_shallow_copy (h : Heap) (a : Nat) (o : HObj)
    (hl : h.lookup a = some o) (ha : a < h.next) :
    hCreateBox h (.vref a)
        = (⟨(h.next, o) :: h.data, h.next + 1⟩, .vref h.next)
    ∧ hGet ⟨(h.next, o) :: h.data, h.next + 1⟩ (.vref h.next)
        = (⟨(h.next + 1, o) :: (h.next, o) :: h.data, h.next + 2⟩,
            .vref (h.next + 1))
    ∧ (HVal.vref (h.next + 1)) ≠ .vref a
    ∧ (HVal.vref (h.next + 1)) ≠ .vref h.next
    ∧ structEqN ⟨(h.next + 1, o) :: (h.next, o) :: h.data, h.next + 2⟩ 2
        (.vref (h.next + 1)) (.vref a) = true := by
  have h1 : hCreateBox h (.vref a)
      = (⟨(h.next, o) :: h.data, h.next + 1⟩, .vref h.next) :=
    hcopy_ref h a o hl
  have hlk : Heap.lookup ⟨(h.next, o) :: h.data, h.next + 1⟩ h.next = some o :=
    Heap.lookup_head _ _ _ _
  have h2 : hGet ⟨(h.next, o) :: h.data, h.next + 1⟩ (.vref h.next)
      = (⟨(h.next + 1, o) :: (h.next, o) :: h.data, h.next + 2⟩,
          .vref (h.next + 1)) :=
    hcopy_ref _ _ _ hlk
  refine ⟨h1, h2, ?_, ?_, ?_⟩
  · intro heq
    injection heq with heq'
    omega
  · intro heq
    injection heq with heq'
    omega
  · have hlkA : Heap.lookup ⟨(h.next + 1, o) :: (h.next, o) :: h.data, h.next + 2⟩ a
        = some o := by
      rw [Heap.lookup_cons_ne _ _ _ _ _ (by omega), Heap.lookup_cons_ne _ _ _ _ _ (by omega)]
      show Heap.lookup ⟨h.data, h.next + 2⟩ a = some o
      simpa [Heap.lookup] using hl
    have hlkT : Heap.lookup ⟨(h.next + 1, o) :: (h.next, o) :: h.data, h.next + 2⟩
        (h.next + 1) = some o :=
      Heap.lookup_head _ _ _ _
    show structEqStep ⟨(h.next + 1, o) :: (h.next, o) :: h.data, h.next + 2⟩
        (structEqN _ 1) (.vref (h.next + 1)) (.vref a) = true
    rw [structEqStep, hlkA, hlkT]
    have hne : ((h.next + 1 : Nat) == a) = false := by
      simp only [beq_eq_false_iff_ne, ne_eq]
      omega
    cases o with
    | harr xs =>
      simp [hne, all_zip_self_structEq]
    | hobj fs =>
      simp [hne, all_zip_self_structEqF]

/-- Witness for the amended C2 at the concrete heap `{x: 5}` at address 0. -/
theorem c2_amended_witness :
    hCreateBox ⟨[(0, .hobj [("x", .vnum 5)])], 1⟩ (.vref 0)
        = (⟨[(1, .hobj [("x", .vnum 5)]), (0, .hobj [("x", .vnum 5)])], 2⟩,
            .vref 1)
    ∧ hGet ⟨[(1, .hobj [("x", .vnum 5)]), (0, .hobj [("x", .vnum 5)])], 2⟩
          (.vref 1)
        = (⟨[(2, .hobj [("x", .vnum 5)]), (1, .hobj [("x", .vnum 5)]),
              (0, .hobj [("x", .vnum 5)])], 3⟩, .vref 2)
    ∧ (HVal.vref 2) ≠ .vref 0
    ∧ (HVal.vref 2) ≠ .vref 1
    ∧ structEqN ⟨[(2, .hobj [("x", .vnum 5)]), (1, .hobj [("x", .vnum 5)]),
          (0, .hobj [("x", .vnum 5)])], 3⟩ 2 (.vref 2) (.vref 0) = true :=
  c2_amended_shallow_copy ⟨[(0, .hobj [("x", .vnum 5)])], 1⟩ 0
    (.hobj [("x", .vnum 5)]) (by simp [Heap.lookup, List.find?_cons]) (by decide)

/-! ## Lemmas about the lib variant -/

theorem libStep_zero (b : LibBox) (op : LibOp) : (libStep b op).zero = b.zero := by
  cases op with
  | setOp v => rfl
  | updateOp f => rfl
  | updateBad v => rfl
  | subscribeOp e => rfl
  | unsubOp e =>
    show (libUnsubscribe e b).zero = b.zero
    unfold libUnsubscribe
    split <;> rfl
  | resetOp => rfl

theorem libRun_zero (ops : List LibOp) :
    ∀ b : LibBox, (libRun ops b).zero = b.zero := by
  induction ops with
  | nil => intro b; rfl
  | cons op ops ih =>
    intro b
    show (libRun ops (libStep b op)).zero = b.zero
    rw [ih, libStep_zero]

/-- C7 counterexample: a lib-variant box with one subscriber (id 7) and
snapshot `0`; `reset()` restores the value but emits **no** notification —
the notification log is `[]`, not the `[(7, 0)]` the claim requires. -/
theorem c7_cex :
    (libReset ⟨.num 5, .num 0, [.callable 7]⟩).2 = []
    ∧ (libReset ⟨.num 5, .num 0, [.callable 7]⟩).1.inner = .num 0
    ∧ ([] : List (Nat × PVal)) ≠ [(7, .num 0)] := by
  refine ⟨rfl, rfl, ?_⟩
  intro h
  exact List.noConfusion h

/-- C7 amended: after any sequence of `set`/`update`/`subscribe`/
`unsubscribe`/`reset` operations, `reset()` restores `get()` to exactly the
snapshot captured at construction (the JSON round-trip clone of the
constructor argument, which no operation ever changes) and leaves the
subscriber list unchanged — but it notifies **no** subscriber. -/
theorem c7_amended_reset (b : LibBox) (ops : List LibOp) :
    (libRun ops b).zero = b.zero
    ∧ libGet (libReset (libRun ops b)).1 = b.zero
    ∧ (libReset (libRun ops b)).1.subscribers = (libRun ops b).subscribers
    ∧ (libReset (libRun ops b)).2 = []
    ∧ ∀ v, (libCreateBox v).map (fun bb => bb.zero) = jsonClone v := by
  refine ⟨libRun_zero ops b, libRun_zero ops b, rfl, rfl, ?_⟩
  intro v
  cases hv : jsonClone v <;> simp [libCreateBox, hv]

/-- C8 counterexample: the lib variant's `subscribe` performs no callable
check: subscribing the non-callable `42` raises nothing and appends it to
the subscriber list (length 1, where the claim requires the list unchanged
and an `InvalidArgument` raised); the failure surfaces only later, as a
`TypeError` thrown in the middle of the next notification dispatch. -/
theorem c8_cex :
    (libSubscribeF (.notCallable (.num 42)) ⟨.num 0, .num 0, []⟩).subscribers.length = 1
    ∧ (1 : Nat) ≠ 0
    ∧ (libSet (.obj []) (libSubscribeF (.notCallable (.num 42))
        ⟨.num 0, .num 0, []⟩)).2.2 = some .typeError := by
  refine ⟨rfl, by decide, rfl⟩

/-- C8 amended: in the TS implementation, a non-callable argument to
`subscribe` or `set` raises `InvalidArgument` immediately with no effect
(`update` takes a plain value, so no callable is required there).  In the
lib variant, a non-callable updater to `update` fails with a `TypeError`
when invoked, before the value is replaced and before anyone is notified;
but `subscribe` performs no check — a non-callable is appended to the
subscriber list without any error, and the very next notification dispatch
aborts with a `TypeError` when it reaches that entry. -/
theorem c8_amended_invalid_callable (b : TSBox) (lb : LibBox) (v w : PVal)
    (specs : ListenerSpecs) :
    tsSubscribe (.notCallable v) b = .error .invalidArgument
    ∧ tsSet specs (.notCallable v) b = .error .invalidArgument
    ∧ libUpdate (.notCallable v) lb = .error .typeError
    ∧ (libSubscribeF (.notCallable v) lb).subscribers
        = lb.subscribers ++ [.notCallable v]
    ∧ (libSubscribeF (.notCallable v) lb).inner = lb.inner
    ∧ libNotify (.notCallable v :: lb.subscribers) w = ([], some .typeError) :=
  ⟨rfl, rfl, rfl, rfl, rfl, rfl⟩

/-! ## Lemmas about the derivation layer -/

theorem filter_derNotify_map (dsubs : List Nat) (t : PVal) :
    (dsubs.map (fun d => DEv.derNotify d t)).filter isDerNotify
      = dsubs.map (fun d => DEv.derNotify d t) := by
  refine List.filter_eq_self.mpr ?_
  intro a ha
  obtain ⟨d, _, rfl⟩ := List.mem_map.mp ha
  rfl

theorem dsetEvents_filter (sel : PVal → PVal) (newVal : PVal) (dsubs : List Nat) :
    ∀ l : List BoxSubEntry,
      (dsetEvents sel newVal dsubs l).filter isDerNotify
        = (List.replicate (l.count .forwarder)
            (dsubs.map (fun d => DEv.derNotify d (sel newVal)))).flatten := by
  intro l
  induction l with
  | nil => rfl
  | cons x rest ih =>
    cases x with
    | plain fid =>
      have hc : (BoxSubEntry.plain fid :: rest).count .forwarder
          = rest.count .forwarder := by
        simp [List.count_cons]
      rw [dsetEvents, List.filter_cons, hc]
      simp only [isDerNotify]
      rw [ih]
      rfl
    | forwarder =>
      have hc : (BoxSubEntry.forwarder :: rest).count .forwarder
          = rest.count .forwarder + 1 := by
        simp [List.count_cons]
      rw [dsetEvents, List.filter_append, hc, List.replicate_succ,
        List.flatten_cons, ih, filter_derNotify_map]

/-- C3: for a derivation over a box, after any sequence of operations
(source mutations, subscriptions and unsubscriptions on either side),
`d.get()` equals `projection(box.get())` at the moment of the call — the
projection is recomputed on demand, never cached; and on each `set` of the
source, every derivation subscriber receives exactly one notification
carrying `projection(newSourceValue)`, in order, with no deduplication even
when the projected value is unchanged. -/
theorem c3_derivation (sel : PVal → PVal) (w : DerWorld) (handler : PVal → PVal)
    (ops : List DOp) (hw : w.boxSubs.count .forwarder = 1) :
    derGet sel (dRun sel ops w) = sel (boxGetD (dRun sel ops w))
    ∧ (dsetOp sel handler w).2.filter isDerNotify
        = w.dsubs.map (fun d =>
            DEv.derNotify d (sel (handler (copy w.boxValue)))) := by
  refine ⟨rfl, ?_⟩
  show (dsetEvents sel (handler (copy w.boxValue)) w.dsubs w.boxSubs).filter
      isDerNotify = _
  rw [dsetEvents_filter, hw]
  simp

/-- Witness for C3: a world with one forwarder, one derivation subscriber
(id 2), projection = identity, mutator returning `3`. -/
theorem c3_witness :
    derGet (fun v => v) (dRun (fun v => v) [] ⟨.num 0, [.forwarder], [2]⟩)
      = (fun v => v) (boxGetD (dRun (fun v => v) [] ⟨.num 0, [.forwarder], [2]⟩))
    ∧ (dsetOp (fun v => v) (fun _ => .num 3) ⟨.num 0, [.forwarder], [2]⟩).2.filter
        isDerNotify
      = [DEv.derNotify 2 (.num 3)] :=
  c3_derivation (fun v => v) ⟨.num 0, [.forwarder], [2]⟩ (fun _ => .num 3) []
    rfl

/-- C9 counterexample: `derive(box, 7)` with the non-callable projection `7`
does **not** fail at construction: it returns successfully, and the eager
subscription to the source has taken effect (the source's subscriber list
grew by one entry, the forwarder). -/
theorem c9_cex :
    deriveMkE (.notCallable (.num 7)) ⟨.num 0, [4]⟩
      = .ok ⟨.num 0, [.plain 4, .forwarder], []⟩
    ∧ (Except.ok (⟨.num 0, [.plain 4, .forwarder], []⟩ : DerWorld)
        : Except JErr DerWorld) ≠ .error .invalidArgument
    ∧ ([BoxSubEntry.plain 4, .forwarder] : List BoxSubEntry).length
        = ([4] : List Nat).length + 1 := by
  refine ⟨rfl, ?_, rfl⟩
  intro h
  exact Except.noConfusion h

theorem dsetEventsE_err (f : PVal → Except JErr PVal) (newVal : PVal)
    (dsubs : List Nat) (e : JErr) (hsel : f newVal = .error e)
    (hd : dsubs ≠ []) :
    ∀ l : List BoxSubEntry, BoxSubEntry.forwarder ∈ l →
      (dsetEventsE f newVal dsubs l).2 = some e := by
  intro l
  induction l with
  | nil => intro h; exact absurd h (List.not_mem_nil _)
  | cons x rest ih =>
    intro hmem
    cases x with
    | plain fid =>
      have hrest : BoxSubEntry.forwarder ∈ rest := by
        rcases List.mem_cons.mp hmem with h | h
        · exact absurd h (by intro hh; exact BoxSubEntry.noConfusion hh)
        · exact h
      show (dsetEventsE f newVal dsubs rest).2 = some e
      exact ih hrest
    | forwarder =>
      cases dsubs with
      | nil => exact absurd rfl hd
      | cons d ds =>
        simp [dsetEventsE, derNotifyE, hsel]

/-- C9 amended: `derive` performs no validation of the projection —
construction always succeeds and eagerly subscribes the forwarder to the
source even for a non-callable projection; the failure surfaces only when
the projection is invoked.  A projection that fails does so uncaught: a
`get()` call returns exactly the projection's failure, and during a source
notification the failure propagates out of the dispatch (after the new
value was already stored), skipping the remaining subscribers. -/
theorem c9_amended_projection_failures (sel : SelArg) (b : TSBox)
    (f : PVal → Except JErr PVal) (w : DerWorld) (handler : PVal → PVal)
    (e : JErr) (hsel : f (handler (copy w.boxValue)) = .error e)
    (hfw : BoxSubEntry.forwarder ∈ w.boxSubs) (hd : w.dsubs ≠ []) :
    deriveMkE sel b
        = .ok ⟨b.internalState, b.subscribers.map .plain ++ [.forwarder], []⟩
    ∧ (∀ u : DerWorld, derGetE f u = f (boxGetD u))
    ∧ (dsetOpE f handler w).1.boxValue = handler (copy w.boxValue)
    ∧ (dsetOpE f handler w).2.2 = some e := by
  refine ⟨rfl, fun u => rfl, rfl, ?_⟩
  exact dsetEventsE_err f _ w.dsubs e hsel hd w.boxSubs hfw

/-- Witness for the amended C9 at a concrete world whose projection always
throws. -/
theorem c9_amended_witness :
    deriveMkE (.notCallable (.num 1)) ⟨.num 0, []⟩
        = .ok ⟨(⟨.num 0, []⟩ : TSBox).internalState,
            (⟨.num 0, []⟩ : TSBox).subscribers.map .plain ++ [.forwarder], []⟩
    ∧ (∀ u : DerWorld,
        derGetE (fun _ => .error .typeError) u
          = (fun _ => (.error .typeError : Except JErr PVal)) (boxGetD u))
    ∧ (dsetOpE (fun _ => .error .typeError) (fun s => s)
          ⟨.num 0, [.forwarder], [9]⟩).1.boxValue
        = (fun s => s) (copy (PVal.num 0))
    ∧ (dsetOpE (fun _ => .error .typeError) (fun s => s)
          ⟨.num 0, [.forwarder], [9]⟩).2.2 = some .typeError :=
  c9_amended_projection_failures (.notCallable (.num 1)) ⟨.num 0, []⟩
    (fun _ => .error .typeError) ⟨.num 0, [.forwarder], [9]⟩ (fun s => s)
    .typeError rfl (by decide) (by intro h; exact List.noConfusion h)
